import Mathlib

/-!
Verification of the h3-js marshaling layer (`src/lib/h3core.js`).

The JavaScript source is shallowly embedded: JS numbers are modeled as exact
rationals (`ℚ`) (the operations exercised here — comparisons, additions,
subtractions, scaling by the double constant `Math.PI` — are treated as exact),
JS strings as `List Char`, and the Emscripten heap as explicit functional state
(`Heap`/`HeapSt`) threaded through each operation.  The foreign H3 engine is an
oracle (`Engine`): each `cwrap`ed C function is a parameter that may transform
the heap and return a value; facade calls to it are logged in `engineLog`.
-/

namespace H3Core

/-- A JS number: either NaN or an exact rational.  (`parseInt` results and i32
reads are always integral; `Rat` also covers fractional resolution inputs.) -/
inductive JSNum where
  | nan : JSNum
  | num : ℚ → JSNum
deriving DecidableEq, Repr

/-- A JS value, as far as the marshaling layer's `typeof` checks distinguish
them: strings, numbers (with NaN separated so `Math.floor(res) !== res` can
detect it), booleans, `null` and `undefined`. -/
inductive JSValue where
  | str : List Char → JSValue
  | numV : ℚ → JSValue
  | nanV : JSValue
  | boolV : Bool → JSValue
  | nullV : JSValue
  | undefV : JSValue
deriving DecidableEq, Repr

/-- `typeof v === 'string'`. -/
def JSValue.isString : JSValue → Bool
  | .str _ => true
  | _ => false

/-- `typeof v === 'number'` (NaN is a number in JS). -/
def JSValue.isNumber : JSValue → Bool
  | .numV _ => true
  | .nanV => true
  | _ => false

/-- Value of a single hexadecimal digit character, as recognized by
`parseInt(_, 16)` (both cases accepted), `none` for non-digits. -/
def hexDigitVal? (c : Char) : Option Nat :=
  match c with
  | 'f' => some 15
  | 'e' => some 14
  | 'd' => some 13
  | 'c' => some 12
  | 'b' => some 11
  | 'a' => some 10
  | '9' => some 9
  | '8' => some 8
  | '7' => some 7
  | '6' => some 6
  | '5' => some 5
  | '4' => some 4
  | '3' => some 3
  | '2' => some 2
  | '1' => some 1
  | '0' => some 0
  | 'F' => some 15
  | 'E' => some 14
  | 'D' => some 13
  | 'C' => some 12
  | 'B' => some 11
  | 'A' => some 10
  | _ => none

/-- Lowercase hexadecimal digit (the characters `Number.prototype.toString(16)`
can emit). -/
def isLowerHexDigit (c : Char) : Bool :=
  c ∈ ['f', 'e', 'd', 'c', 'b', 'a',
       '9', '8', '7', '6', '5', '4', '3', '2', '1', '0']

/-- Numeric value of a hex string (all characters assumed hex digits);
used to state what `parseInt(s, 16)` computes on digit-only input. -/
def hexStrVal (s : List Char) : Nat :=
  s.foldl (fun a c => a * 16 + (hexDigitVal? c).getD 0) 0

/-- Accumulating loop of `parseInt(_, 16)`: consume the maximal prefix of hex
digits, stopping at the first non-digit. -/
def parseIntHexAux : List Char → Nat → Nat
  | [], acc => acc
  | c :: cs, acc =>
    match hexDigitVal? c with
    | some d => parseIntHexAux cs (acc * 16 + d)
    | none => acc

/-- JS `parseInt(s, 16)` on the inputs that occur here (no leading whitespace,
sign, or `0x` prefix, which cannot appear in an all-hex-digit string): NaN when
the first character is not a hex digit (in particular on the empty string),
else the value of the maximal hex-digit prefix. -/
def parseIntHex (s : List Char) : JSNum :=
  match s with
  | [] => .nan
  | c :: cs =>
    match hexDigitVal? c with
    | none => .nan
    | some d => .num (parseIntHexAux cs d)

/-- `h3AddressToSplitLong` (src/lib/h3core.js:107-114): a non-string yields the
`[0, 0]` sentinel pair; a string is split as
`upper = parseInt(s.substring(0, len - 8), 16)`,
`lower = parseInt(s.substring(len - 8), 16)`, returned as `[lower, upper]`.
(JS `substring` clamps a negative index to 0, which `Nat` subtraction models.) -/
def h3AddressToSplitLong (h3Address : JSValue) : JSNum × JSNum :=
  match h3Address with
  | .str s =>
      (parseIntHex (s.drop (s.length - 8)), parseIntHex (s.take (s.length - 8)))
  | _ => (.num 0, .num 0)

/-- Digit-to-character mapping of `Number.prototype.toString(16)` (lowercase). -/
def natToHexChar (n : Nat) : Char :=
  match n with
  | 0 => '0' | 1 => '1' | 2 => '2' | 3 => '3' | 4 => '4'
  | 5 => '5' | 6 => '6' | 7 => '7' | 8 => '8' | 9 => '9'
  | 10 => 'a' | 11 => 'b' | 12 => 'c' | 13 => 'd' | 14 => 'e'
  | 15 => 'f'
  | _ => '0'

/-- Digit-peeling loop of `Number.prototype.toString(16)` for positive naturals:
emit `n % 16` onto the front of the accumulator and recurse on `n / 16`. -/
def natToHexAux : Nat → List Char → List Char
  | 0, acc => acc
  | n + 1, acc => natToHexAux ((n + 1) / 16) (natToHexChar ((n + 1) % 16) :: acc)
decreasing_by exact Nat.div_lt_self (Nat.succ_pos n) (by omega)

/-- `Number.prototype.toString(16)` on a nonnegative integer: `"0"` for zero,
else the hex digits without leading zeros. -/
def natToHex (v : Nat) : List Char :=
  if v = 0 then '0' :: [] else natToHexAux v []

/-- `zeroPad` (src/lib/h3core.js:150-158): left-pad with `'0'` up to `fullLen`
(the padding loop runs zero times when the string is already long enough,
which `Nat` subtraction models). -/
def zeroPad (fullLen : Nat) (numStr : List Char) : List Char :=
  List.replicate (fullLen - numStr.length) '0' ++ numStr

/-- `hexFrom32Bit` (src/lib/h3core.js:121-132): nonnegative numbers render via
`toString(16)`; a negative (two's-complement i32 artifact) is masked to 31 bits
(`num & 0x7fffffff`, i.e. `num + 2^31` for `num ∈ [-2^31, 0)`), zero-padded to
8 digits, and 8 is added to the top nibble. -/
def hexFrom32Bit (num : Int) : List Char :=
  if 0 ≤ num then natToHex num.toNat
  else
    let m : Nat := ((num + 2 ^ 31).emod (2 ^ 32)).toNat % 2 ^ 31
    let tempStr := zeroPad 8 (natToHex m)
    let topNum := natToHex ((hexDigitVal? (tempStr.headD '0')).getD 0 + 8)
    topNum ++ tempStr.tail

/-- `splitLongToH3Address` (src/lib/h3core.js:140-142). -/
def splitLongToH3Address (lower upper : Int) : List Char :=
  hexFrom32Bit upper ++ zeroPad 8 (hexFrom32Bit lower)

/-- `h3GetResolution` (src/lib/h3core.js:445-450): `-1` for non-strings, else
`parseInt(s.charAt(1), 16)` — `charAt(1)` is the one-character string holding
the second character, or the empty string when absent. -/
def h3GetResolution (h3Address : JSValue) : JSNum :=
  match h3Address with
  | .str s =>
      parseIntHex (match s[1]? with | some c => [c] | none => [])
  | _ => .num (-1)

/-- `validateRes` (src/lib/h3core.js:96-100) succeeds (does not throw) iff the
argument is a number with `0 ≤ res ≤ 15` and `Math.floor(res) === res`.
(For NaN every comparison is false and `floor(NaN) !== NaN`, so NaN fails.) -/
def validateResOk (res : JSValue) : Bool :=
  match res with
  | .numV q => !(q < 0) && !(15 < q) && (⌊q⌋ = q)
  | _ => false

/-- JS `Math.trunc`-style truncation toward zero (the first step of ToInt32). -/
def jsTrunc (q : ℚ) : Int :=
  if q < 0 then -(⌊-q⌋) else ⌊q⌋

/-- Reinterpret an integer as a signed 32-bit value (the wasm/typed-array
boundary: same bit pattern whether written via `HEAPU32` or read as `'i32'`). -/
def wrap32 (n : Int) : Int :=
  let m := n % 2 ^ 32
  if m < 2 ^ 31 then m else m - 2 ^ 32

/-- Coerce a JS number to a wasm i32 argument (ToInt32; NaN becomes 0). -/
def JSNum.toI32 : JSNum → Int
  | .nan => 0
  | .num q => wrap32 (jsTrunc q)

-- ----------------------------------------------------------------------------
-- Byte size imports (values the engine reports for its 32-bit wasm ABI)

def SZ_INT : Nat := 4
def SZ_PTR : Nat := 4
def SZ_DBL : Nat := 8
def SZ_H3INDEX : Nat := 8
def SZ_GEOCOORD : Nat := 16
def SZ_GEOBOUNDARY : Nat := 168
def SZ_GEOPOLYGON : Nat := 16
def SZ_GEOFENCE : Nat := 8
def SZ_LINKED_GEOPOLYGON : Nat := 12

-- ----------------------------------------------------------------------------
-- Coordinate transform

/-- The double constant `Math.PI`, as an exact rational. -/
def mathPI : ℚ := 884279719003555 / 281474976710656

/-- `degsToRads` (src/lib/h3core.js:60-62). -/
def degsToRads (deg : ℚ) : ℚ := deg * mathPI / 180

/-- `radsToDegs` (src/lib/h3core.js:69-71). -/
def radsToDegs (rad : ℚ) : ℚ := rad * 180 / mathPI

/-- `constrainLat` (src/lib/h3core.js:78-80). -/
def constrainLat (lat : ℚ) : ℚ := if 90 < lat then lat - 180 else lat

/-- `constrainLng` (src/lib/h3core.js:87-89). -/
def constrainLng (lng : ℚ) : ℚ := if 180 < lng then lng - 360 else lng

-- ----------------------------------------------------------------------------
-- Foreign memory model

/-- The Emscripten heap, through the two typed views the source uses:
4-byte integer/pointer reads and writes (`getValue`/`setValue`/`HEAPU32`) and
8-byte float reads and writes (`getValue 'double'`/`HEAPF64`), both keyed by
byte address. -/
structure Heap where
  h32 : Nat → Int
  f64 : Nat → ℚ

/-- `getValue(addr, 'i32')` / `getValue(addr, 'i8*')`. -/
def Heap.get32 (h : Heap) (addr : Nat) : Int := h.h32 addr

/-- `setValue(addr, v, 'i32')` / a `HEAPU32` store (stored as its i32 bit
pattern). -/
def Heap.set32 (h : Heap) (addr : Nat) (v : Int) : Heap :=
  { h with h32 := fun a => if a = addr then wrap32 v else h.h32 a }

/-- A `HEAPF64` store. -/
def Heap.setF64 (h : Heap) (addr : Nat) (v : ℚ) : Heap :=
  { h with f64 := fun a => if a = addr then v else h.f64 a }

/-- Zero-fill a byte range (what `calloc` does to a fresh block). -/
def Heap.zeroRange (h : Heap) (base len : Nat) : Heap :=
  { h32 := fun a => if base ≤ a ∧ a < base + len then 0 else h.h32 a,
    f64 := fun a => if base ≤ a ∧ a < base + len then 0 else h.f64 a }

/-- A pointer read from the heap, as an address (pointers are nonnegative). -/
def toAddr (v : Int) : Nat := v.toNat

/-- The full marshaling state: the heap plus the allocation bookkeeping this
development audits — every address returned by an allocation, every address
passed to `C._free`, and the name of every engine function invoked. -/
structure HeapSt where
  heap : Heap
  next : Nat
  allocLog : List Nat
  freeLog : List Nat
  engineLog : List String

/-- `C._calloc(count, size)`: a fresh zeroed block.  The model reserves one
extra byte per block so that even zero-byte requests get distinct addresses,
as the runtime allocator returns distinct minimal chunks. -/
def calloc (st : HeapSt) (count size : Nat) : Nat × HeapSt :=
  let addr := st.next
  let bytes := count * size
  (addr, { st with
            heap := st.heap.zeroRange addr bytes,
            next := st.next + bytes + 1,
            allocLog := st.allocLog ++ [addr] })

/-- `C._calloc(n)` with the size argument omitted, as at
src/lib/h3core.js:195 and :653.  Modeled as a fresh zeroed block with the
intended struct footprint of `n` bytes. -/
def callocOneArg (st : HeapSt) (n : Nat) : Nat × HeapSt :=
  calloc st n 1

/-- `C._malloc(bytes)`: a fresh block, contents not zeroed. -/
def mallocBytes (st : HeapSt) (bytes : Nat) : Nat × HeapSt :=
  (st.next, { st with
               next := st.next + bytes + 1,
               allocLog := st.allocLog ++ [st.next] })

/-- `C._free(addr)`: recorded in the free log. -/
def freeAddr (st : HeapSt) (addr : Nat) : HeapSt :=
  { st with freeLog := st.freeLog ++ [addr] }

/-- Log an engine invocation that returns a value without touching the heap. -/
def logEngine (st : HeapSt) (name : String) : HeapSt :=
  { st with engineLog := st.engineLog ++ [name] }

/-- Log an engine invocation and apply its effect on the heap. -/
def engineHeap (st : HeapSt) (name : String) (f : Heap → Heap) : HeapSt :=
  { st with heap := f st.heap, engineLog := st.engineLog ++ [name] }

/-- An all-zero heap with a given starting allocation address. -/
def initSt (next : Nat) : HeapSt :=
  ⟨⟨fun _ => 0, fun _ => 0⟩, next, [], [], []⟩

-- ----------------------------------------------------------------------------
-- Readers and writers over foreign memory

/-- `readSingleCoord` (src/lib/h3core.js:302-304). -/
def readSingleCoord (h : Heap) (cAddress : Nat) : ℚ :=
  radsToDegs (h.f64 cAddress)

/-- `readGeoCoord` (src/lib/h3core.js:311-316): a `[lat, lng]` pair. -/
def readGeoCoord (h : Heap) (cAddress : Nat) : ℚ × ℚ :=
  (constrainLat (readSingleCoord h cAddress),
   constrainLng (readSingleCoord h (cAddress + SZ_DBL)))

/-- `readGeoCoordGeoJson` (src/lib/h3core.js:323-328): a `[lng, lat]` pair. -/
def readGeoCoordGeoJson (h : Heap) (cAddress : Nat) : ℚ × ℚ :=
  (constrainLng (readSingleCoord h (cAddress + SZ_DBL)),
   constrainLat (readSingleCoord h cAddress))

/-- `readGeoBoundary` (src/lib/h3core.js:337-353): `numVerts` vertices read
from 8 bytes past the struct start (the doubles are 8-byte aligned), then the
first point re-pushed when `closedLoop` is truthy.  (`out[0]` on an empty
boundary would be `undefined` in JS; the `headD (0, 0)` default is only reached
when `numVerts = 0`, and every theorem below assumes `1 ≤ numVerts`.  A
negative `numVerts` runs the JS loop zero times, which `Int.toNat` models.) -/
def readGeoBoundary (h : Heap) (geoBoundary : Nat) (geoJsonCoords closedLoop : Bool) :
    List (ℚ × ℚ) :=
  let numVerts := (h.get32 geoBoundary).toNat
  let vertsPos := geoBoundary + SZ_DBL
  let readCoord := if geoJsonCoords then readGeoCoordGeoJson else readGeoCoord
  let out := (List.range numVerts).map (fun v => readCoord h (vertsPos + SZ_DBL * (2 * v)))
  if closedLoop then out ++ [out.headD (0, 0)] else out

/-- `readArrayOfHexagons` (src/lib/h3core.js:271-281): scan the full capacity,
skipping every entry whose two words are both zero (the JS loop steps `i` by 2;
vertex `v` reads words `2v` and `2v + 1`). -/
def readArrayOfHexagons (h : Heap) (cAddress maxCount : Nat) : List (List Char) :=
  (List.range maxCount).foldl
    (fun out v =>
      let lower := h.get32 (cAddress + SZ_INT * (2 * v))
      let upper := h.get32 (cAddress + SZ_INT * (2 * v + 1))
      if lower ≠ 0 ∨ upper ≠ 0 then out ++ [splitLongToH3Address lower upper] else out)
    []

/-- `storeArrayOfHexagons` (src/lib/h3core.js:288-300): write each address's
split-long pair into consecutive 32-bit slots. -/
def storeArrayOfHexagons (h : Heap) (cAddress : Nat) (hexagons : List JSValue) : Heap :=
  (List.range hexagons.length).foldl
    (fun h i =>
      let p := h3AddressToSplitLong (hexagons.getD i .undefV)
      let h := h.set32 (cAddress + SZ_INT * (2 * i)) p.1.toI32
      h.set32 (cAddress + SZ_INT * (2 * i + 1)) p.2.toI32)
    h

-- ----------------------------------------------------------------------------
-- Geometry struct builder

/-- `polygonArrayToGeofence` (src/lib/h3core.js:167-184): allocate the
coordinate array, write each vertex (constrained, converted to radians,
`[lng, lat]` input order when `isGeoJson`), then write
`{numVerts, geoCoordArray}` into the geofence struct. -/
def polygonArrayToGeofence (st : HeapSt) (polygonArray : List (ℚ × ℚ))
    (geofence : Nat) (isGeoJson : Bool) : Nat × HeapSt :=
  let numVerts := polygonArray.length
  let (geoCoordArray, st) := calloc st numVerts SZ_GEOCOORD
  let h1 :=
    (List.range numVerts).foldl
      (fun h v =>
        let pt := polygonArray.getD v (0, 0)
        let lat := if isGeoJson then pt.2 else pt.1
        let lng := if isGeoJson then pt.1 else pt.2
        let h := h.setF64 (geoCoordArray + SZ_DBL * (2 * v)) (degsToRads (constrainLat lat))
        h.setF64 (geoCoordArray + SZ_DBL * (2 * v) + SZ_DBL) (degsToRads (constrainLng lng)))
      st.heap
  let h2 := (h1.set32 geofence (numVerts : Int)).set32 (geofence + SZ_INT) (geoCoordArray : Int)
  (geofence, { st with heap := h2 })

/-- `coordinatesToGeoPolygon` (src/lib/h3core.js:192-212): polygon header with
the outer geofence embedded at offset 0, `numHoles` after it, then the pointer
to the separately allocated holes array (0 when `holes` stays `undefined`). -/
def coordinatesToGeoPolygon (st : HeapSt) (coordinates : List (List (ℚ × ℚ)))
    (isGeoJson : Bool) : Nat × HeapSt :=
  let numHoles := coordinates.length - 1
  let (geoPolygon, st) := callocOneArg st SZ_GEOPOLYGON
  let geofenceOffset := 0
  let numHolesOffset := geofenceOffset + SZ_GEOFENCE
  let holesOffset := numHolesOffset + SZ_INT
  let (_, st) := polygonArrayToGeofence st (coordinates.headD []) (geoPolygon + geofenceOffset) isGeoJson
  let (holes, st) :=
    if 0 < numHoles then
      let (holes, st) := calloc st numHoles SZ_GEOFENCE
      let st := (List.range numHoles).foldl
        (fun st i =>
          (polygonArrayToGeofence st (coordinates.getD (i + 1) []) (holes + SZ_GEOFENCE * i) isGeoJson).2)
        st
      (some holes, st)
    else (none, st)
  let st := { st with heap := st.heap.set32 (geoPolygon + numHolesOffset) (numHoles : Int) }
  let st := { st with heap := st.heap.set32 (geoPolygon + holesOffset) ((holes.getD 0 : Nat) : Int) }
  (geoPolygon, st)

/-- `destroyGeoPolygon` (src/lib/h3core.js:219-232), exactly as written: free
the pointer read at `geoPolygon + geofenceOffset` (offset 0), then for each
hole the pointer read at `geoPolygon + holesOffset + SZ_GEOFENCE * i`, then
the header itself. -/
def destroyGeoPolygon (st : HeapSt) (geoPolygon : Nat) : HeapSt :=
  let geofenceOffset := 0
  let numHolesOffset := geofenceOffset + SZ_GEOFENCE
  let holesOffset := numHolesOffset + SZ_INT
  let st := freeAddr st (toAddr (st.heap.get32 (geoPolygon + geofenceOffset)))
  let numHoles := (st.heap.get32 (geoPolygon + numHolesOffset)).toNat
  let st := (List.range numHoles).foldl
    (fun st i => freeAddr st (toAddr (st.heap.get32 (geoPolygon + holesOffset + SZ_GEOFENCE * i))))
    st
  freeAddr st geoPolygon

-- ----------------------------------------------------------------------------
-- Linked-output walker

/-- The coordinate chain of `readMultiPolygon` (src/lib/h3core.js:377-381):
follow `->next` (at byte offset `SZ_DBL * 2`) until null.  The `fuel` bound is
a modeling device for the JS `while` loop; the engine produces finite acyclic
structures, so for sufficient fuel the traversal is complete. -/
def readCoordChain (h : Heap) (geoJson : Bool) : Nat → Nat → List (ℚ × ℚ)
  | 0, _ => []
  | fuel + 1, coord =>
    if coord = 0 then []
    else
      (if geoJson then readGeoCoordGeoJson h coord else readGeoCoord h coord) ::
        readCoordChain h geoJson fuel (toAddr (h.get32 (coord + SZ_DBL * 2)))

/-- The loop chain of `readMultiPolygon` (src/lib/h3core.js:373-388): each
loop's coords are its `->first` chain (offset 0), closed by re-pushing the
first point when GeoJSON output is requested, then `->next` at offset
`SZ_PTR * 2`.  (As in `readGeoBoundary`, `coords[0]` of an empty chain is
modeled by `headD (0, 0)`.) -/
def readLoopChain (h : Heap) (geoJson : Bool) : Nat → Nat → List (List (ℚ × ℚ))
  | 0, _ => []
  | fuel + 1, loop =>
    if loop = 0 then []
    else
      let coords := readCoordChain h geoJson fuel (toAddr (h.get32 loop))
      let coords := if geoJson then coords ++ [coords.headD (0, 0)] else coords
      coords :: readLoopChain h geoJson fuel (toAddr (h.get32 (loop + SZ_PTR * 2)))

/-- The polygon chain of `readMultiPolygon` (src/lib/h3core.js:369-391). -/
def readPolygonChain (h : Heap) (geoJson : Bool) : Nat → Nat → List (List (List (ℚ × ℚ)))
  | 0, _ => []
  | fuel + 1, polygon =>
    if polygon = 0 then []
    else
      readLoopChain h geoJson fuel (toAddr (h.get32 polygon)) ::
        readPolygonChain h geoJson fuel (toAddr (h.get32 (polygon + SZ_PTR * 2)))

/-- `readMultiPolygon` (src/lib/h3core.js:361-393). -/
def readMultiPolygon (h : Heap) (polygon : Nat) (formatAsGeoJson : Bool) (fuel : Nat) :
    List (List (List (ℚ × ℚ))) :=
  readPolygonChain h formatAsGeoJson fuel polygon

-- ----------------------------------------------------------------------------
-- The foreign engine, as an oracle

/-- The engine functions the verified operations invoke.  Each is an arbitrary
oracle: it may read and replace heap contents and return any value, but the
allocation ledger (`next`, `allocLog`, `freeLog`) belongs to the host side. -/
structure Engine where
  maxKringSize : Int → Int
  kRing : Int → Int → Int → Nat → Heap → Heap
  hexRing : Int → Int → Int → Nat → Heap → Int × Heap
  compact : Nat → Nat → Int → Heap → Int × Heap
  maxUncompactSize : Nat → Int → Int → Heap → Int
  uncompact : Nat → Int → Nat → Int → Int → Heap → Int × Heap
  maxPolyfillSize : Nat → ℚ → Heap → Int
  polyfill : Nat → ℚ → Nat → Heap → Heap
  h3ToGeoBoundary : Int → Int → Nat → Heap → Heap
  getH3UnidirectionalEdgeBoundary : Int → Int → Nat → Heap → Heap
  hexAreaM2 : ℚ → ℚ
  hexAreaKm2 : ℚ → ℚ
  edgeLengthM : ℚ → ℚ
  edgeLengthKm : ℚ → ℚ

/-- The errors the facade can throw, one constructor per `throw` site. -/
inductive JSError where
  | invalidRes : JSError
  | unknownUnit : JSError
  | hexRingFailed : JSError
  | compactFailed : JSError
  | uncompactFailed : JSError
deriving DecidableEq, Repr

/-- The message text of each thrown `Error` (the two validation errors also
interpolate the offending value after this prefix). -/
def JSError.message : JSError → String
  | .invalidRes => "Invalid resolution: "
  | .unknownUnit => "Unknown unit: "
  | .hexRingFailed => "Failed to get hexRing (encountered a pentagon?)"
  | .compactFailed => "Failed to compact, malformed input data (duplicate hexagons?)"
  | .uncompactFailed => "Failed to uncompact (bad resolution?)"

/-- The numeric value of a resolution argument as the FFI passes it (only used
after `validateRes`, which guarantees a number). -/
def resQ (res : JSValue) : ℚ :=
  match res with
  | .numV q => q
  | _ => 0

/-- A resolution argument coerced to a wasm i32. -/
def resI32 (res : JSValue) : Int := wrap32 (jsTrunc (resQ res))

-- ----------------------------------------------------------------------------
-- Operation facade

/-- `kRing` (src/lib/h3core.js:538-546). -/
def kRing (E : Engine) (h3Address : JSValue) (ringSize : Int) (st : HeapSt) :
    List (List Char) × HeapSt :=
  let p := h3AddressToSplitLong h3Address
  let maxCount := E.maxKringSize ringSize
  let st := logEngine st "maxKringSize"
  let (hexagons, st) := calloc st maxCount.toNat SZ_H3INDEX
  let st := engineHeap st "kRing" (E.kRing p.1.toI32 p.2.toI32 ringSize hexagons)
  let out := readArrayOfHexagons st.heap hexagons maxCount.toNat
  let st := freeAddr st hexagons
  (out, st)

/-- `hexRing` (src/lib/h3core.js:588-599). -/
def hexRing (E : Engine) (h3Address : JSValue) (ringSize : Int) (st : HeapSt) :
    Except JSError (List (List Char)) × HeapSt :=
  let maxCount := (if ringSize = 0 then 1 else 6 * ringSize).toNat
  let (hexagons, st) := calloc st maxCount SZ_H3INDEX
  let p := h3AddressToSplitLong h3Address
  let call := E.hexRing p.1.toI32 p.2.toI32 ringSize hexagons st.heap
  let retVal := call.1
  let st := { st with heap := call.2, engineLog := st.engineLog ++ ["hexRing"] }
  if retVal ≠ 0 then
    let st := freeAddr st hexagons
    (.error .hexRingFailed, st)
  else
    let out := readArrayOfHexagons st.heap hexagons maxCount
    let st := freeAddr st hexagons
    (.ok out, st)

/-- The kind of nested-array argument `polyfill` accepts: either an array of
loops, or a single loop of coordinate pairs (detected in the source by
`typeof coordinates[0][0] === 'number'`). -/
inductive CoordsInput where
  | polygons : List (List (ℚ × ℚ)) → CoordsInput
  | loop : List (ℚ × ℚ) → CoordsInput

/-- The empty-input guard of `polyfill` (src/lib/h3core.js:617):
`coordinates.length === 0 || coordinates[0].length === 0`.  For a single-loop
argument, `coordinates[0]` is a coordinate pair, whose length (2) is never 0. -/
def emptyCoordsInput : CoordsInput → Bool
  | .polygons ps => ps.isEmpty || (ps.headD []).isEmpty
  | .loop l => l.isEmpty

/-- `polyfill` (src/lib/h3core.js:613-632).  `isGeoJson` arrives already
coerced by `Boolean(_)`. -/
def polyfill (E : Engine) (coordinates : CoordsInput) (res : JSValue)
    (isGeoJson : Bool) (st : HeapSt) : Except JSError (List (List Char)) × HeapSt :=
  if validateResOk res = false then (.error .invalidRes, st)
  else if emptyCoordsInput coordinates then (.ok [], st)
  else
    let coords := match coordinates with
      | .loop l => [l]
      | .polygons ps => ps
    let (geoPolygon, st) := coordinatesToGeoPolygon st coords isGeoJson
    let arrayLen := E.maxPolyfillSize geoPolygon (resQ res) st.heap
    let st := logEngine st "maxPolyfillSize"
    let (hexagons, st) := calloc st arrayLen.toNat SZ_H3INDEX
    let st := engineHeap st "polyfill" (E.polyfill geoPolygon (resQ res) hexagons)
    let out := readArrayOfHexagons st.heap hexagons arrayLen.toNat
    let st := freeAddr st hexagons
    let st := destroyGeoPolygon st geoPolygon
    (.ok out, st)

/-- `compact` (src/lib/h3core.js:673-693).  `none` models a null/undefined
argument (the `!h3Set` guard). -/
def compact (E : Engine) (h3Set : Option (List JSValue)) (st : HeapSt) :
    Except JSError (List (List Char)) × HeapSt :=
  match h3Set with
  | none => (.ok [], st)
  | some l =>
    if l.length = 0 then (.ok [], st)
    else
      let count := l.length
      let (set, st) := calloc st count SZ_H3INDEX
      let st := { st with heap := storeArrayOfHexagons st.heap set l }
      let (compactedSet, st) := calloc st count SZ_H3INDEX
      let call := E.compact set compactedSet (count : Int) st.heap
      let retVal := call.1
      let st := { st with heap := call.2, engineLog := st.engineLog ++ ["compact"] }
      if retVal ≠ 0 then
        let st := freeAddr st set
        let st := freeAddr st compactedSet
        (.error .compactFailed, st)
      else
        let out := readArrayOfHexagons st.heap compactedSet count
        let st := freeAddr st set
        let st := freeAddr st compactedSet
        (.ok out, st)

/-- `uncompact` (src/lib/h3core.js:702-725). -/
def uncompact (E : Engine) (compactedSet : Option (List JSValue)) (res : JSValue)
    (st : HeapSt) : Except JSError (List (List Char)) × HeapSt :=
  if validateResOk res = false then (.error .invalidRes, st)
  else
    match compactedSet with
    | none => (.ok [], st)
    | some l =>
      if l.length = 0 then (.ok [], st)
      else
        let count := l.length
        let (set, st) := calloc st count SZ_H3INDEX
        let st := { st with heap := storeArrayOfHexagons st.heap set l }
        let maxUncompactedNum := E.maxUncompactSize set (count : Int) (resI32 res) st.heap
        let st := logEngine st "maxUncompactSize"
        let (uncompactedSet, st) := calloc st maxUncompactedNum.toNat SZ_H3INDEX
        let call :=
          E.uncompact set (count : Int) uncompactedSet maxUncompactedNum (resI32 res) st.heap
        let retVal := call.1
        let st := { st with heap := call.2, engineLog := st.engineLog ++ ["uncompact"] }
        if retVal ≠ 0 then
          let st := freeAddr st set
          let st := freeAddr st uncompactedSet
          (.error .uncompactFailed, st)
        else
          let out := readArrayOfHexagons st.heap uncompactedSet maxUncompactedNum.toNat
          let st := freeAddr st set
          let st := freeAddr st uncompactedSet
          (.ok out, st)

/-- `h3ToGeoBoundary` (src/lib/h3core.js:493-500): reads the boundary with
`closedLoop = formatAsGeoJson`. -/
def h3ToGeoBoundary (E : Engine) (h3Address : JSValue) (formatAsGeoJson : Bool)
    (st : HeapSt) : List (ℚ × ℚ) × HeapSt :=
  let (geoBoundary, st) := mallocBytes st SZ_GEOBOUNDARY
  let p := h3AddressToSplitLong h3Address
  let st := engineHeap st "h3ToGeoBoundary" (E.h3ToGeoBoundary p.1.toI32 p.2.toI32 geoBoundary)
  let out := readGeoBoundary st.heap geoBoundary formatAsGeoJson formatAsGeoJson
  let st := freeAddr st geoBoundary
  (out, st)

/-- `getH3UnidirectionalEdgeBoundary` (src/lib/h3core.js:822-829): the source
calls `readGeoBoundary` with only two arguments, so `closedLoop` is
`undefined`, which is falsy — the loop is never closed. -/
def getH3UnidirectionalEdgeBoundary (E : Engine) (edgeAddress : JSValue)
    (formatAsGeoJson : Bool) (st : HeapSt) : List (ℚ × ℚ) × HeapSt :=
  let (geoBoundary, st) := mallocBytes st SZ_GEOBOUNDARY
  let p := h3AddressToSplitLong edgeAddress
  let st := engineHeap st "getH3UnidirectionalEdgeBoundary"
    (E.getH3UnidirectionalEdgeBoundary p.1.toI32 p.2.toI32 geoBoundary)
  let out := readGeoBoundary st.heap geoBoundary formatAsGeoJson false
  let st := freeAddr st geoBoundary
  (out, st)

/-- `hexArea` (src/lib/h3core.js:840-850): validate the resolution, then a
strict-equality switch on the unit with a throwing default. -/
def hexArea (E : Engine) (res unit : JSValue) (st : HeapSt) : Except JSError ℚ × HeapSt :=
  if validateResOk res = false then (.error .invalidRes, st)
  else if unit = .str "m2".toList then (.ok (E.hexAreaM2 (resQ res)), logEngine st "hexAreaM2")
  else if unit = .str "km2".toList then (.ok (E.hexAreaKm2 (resQ res)), logEngine st "hexAreaKm2")
  else (.error .unknownUnit, st)

/-- `edgeLength` (src/lib/h3core.js:858-868). -/
def edgeLength (E : Engine) (res unit : JSValue) (st : HeapSt) : Except JSError ℚ × HeapSt :=
  if validateResOk res = false then (.error .invalidRes, st)
  else if unit = .str "m".toList then (.ok (E.edgeLengthM (resQ res)), logEngine st "edgeLengthM")
  else if unit = .str "km".toList then (.ok (E.edgeLengthKm (resQ res)), logEngine st "edgeLengthKm")
  else (.error .unknownUnit, st)

-- ----------------------------------------------------------------------------
-- Concrete engine instances (used by closed witness/counterexample theorems)

/-- An engine whose every call succeeds with zeros and leaves the heap alone. -/
def zeroEngine : Engine :=
  { maxKringSize := fun _ => 0
    kRing := fun _ _ _ _ h => h
    hexRing := fun _ _ _ _ h => (0, h)
    compact := fun _ _ _ h => (0, h)
    maxUncompactSize := fun _ _ _ _ => 0
    uncompact := fun _ _ _ _ _ h => (0, h)
    maxPolyfillSize := fun _ _ _ => 0
    polyfill := fun _ _ _ h => h
    h3ToGeoBoundary := fun _ _ _ h => h
    getH3UnidirectionalEdgeBoundary := fun _ _ _ h => h
    hexAreaM2 := fun _ => 0
    hexAreaKm2 := fun _ => 0
    edgeLengthM := fun _ => 0
    edgeLengthKm := fun _ => 0 }

/-- An engine whose fallible calls all signal failure by nonzero status. -/
def failEngine : Engine :=
  { zeroEngine with
    hexRing := fun _ _ _ _ h => (1, h)
    compact := fun _ _ _ h => (1, h)
    uncompact := fun _ _ _ _ _ h => (2, h) }

/-- An engine whose edge-boundary call writes a 2-vertex boundary with two
distinct points (10°, 20°) and (0°, 0°)-free first vertex at the origin. -/
def edgeEngine : Engine :=
  { zeroEngine with
    getH3UnidirectionalEdgeBoundary := fun _ _ gb h =>
      let h := h.set32 gb 2
      let h := h.setF64 (gb + 8) (degsToRads 0)
      let h := h.setF64 (gb + 16) (degsToRads 0)
      let h := h.setF64 (gb + 24) (degsToRads 10)
      h.setF64 (gb + 32) (degsToRads 20) }

/-- A concrete heap for witness theorems: latitude slot (byte 0) holds the
radian value for 90°, longitude slot (byte 8) the radian value for 180°. -/
def c4Heap : Heap :=
  ⟨fun _ => 0, fun addr => if addr = 0 then mathPI / 2 else if addr = 8 then mathPI else 0⟩

/-- A concrete heap for the loop-closing witness: a boundary struct at 0 with
`numVerts = 1`, and a linked structure — polygon node at 40 (first loop 60),
loop node at 60 (first coordinate 80), one coordinate node at 80 — with all
next pointers null. -/
def c5Heap : Heap :=
  ⟨fun a => if a = 0 then 1 else if a = 40 then 60 else if a = 60 then 80 else 0,
   fun _ => 0⟩

/-- The polygon the walker extracts from `c5Heap` starting at node 40. -/
def c5Poly : List (List (ℚ × ℚ)) :=
  readLoopChain c5Heap true 4 (toAddr (c5Heap.get32 40))

/-- The single (GeoJSON-closed) loop of `c5Poly`. -/
def c5Loop : List (ℚ × ℚ) :=
  readCoordChain c5Heap true 3 80 ++ [(readCoordChain c5Heap true 3 80).headD (0, 0)]

-- ----------------------------------------------------------------------------
-- Lemmas: hexadecimal digit tables

theorem hexDigitVal_getD_le (c : Char) : (hexDigitVal? c).getD 0 ≤ 15 := by
  unfold hexDigitVal?
  split <;> simp

theorem lowerHex_char_facts (c : Char) (h : isLowerHexDigit c = true) :
    hexDigitVal? c = some ((hexDigitVal? c).getD 0) ∧
    natToHexChar ((hexDigitVal? c).getD 0) = c ∧
    (c ≠ '0' → (hexDigitVal? c).getD 0 ≠ 0) := by
  simp only [isLowerHexDigit, List.elem_eq_mem, decide_eq_true_eq, List.mem_cons,
    List.mem_singleton, List.not_mem_nil, or_false] at h
  rcases h with h | h | h | h | h | h | h | h | h | h | h | h | h | h | h | h <;>
    subst h <;> exact ⟨rfl, rfl, by decide⟩

-- ----------------------------------------------------------------------------
-- Lemmas: hex parsing

theorem hexStrVal_cons_foldl (c : Char) (t : List Char) :
    hexStrVal (c :: t) =
      t.foldl (fun x c => x * 16 + (hexDigitVal? c).getD 0) ((hexDigitVal? c).getD 0) := by
  have h : hexStrVal (c :: t) =
      t.foldl (fun x c => x * 16 + (hexDigitVal? c).getD 0)
        (0 * 16 + (hexDigitVal? c).getD 0) := rfl
  rw [h]
  norm_num

theorem hexFoldl_eq (s : List Char) : ∀ a : Nat,
    s.foldl (fun x c => x * 16 + (hexDigitVal? c).getD 0) a =
      a * 16 ^ s.length + hexStrVal s := by
  induction s with
  | nil => intro a; simp [hexStrVal]
  | cons c t ih =>
      intro a
      rw [List.foldl_cons, ih, hexStrVal_cons_foldl, ih]
      simp [List.length_cons]
      ring

theorem hexStrVal_cons (c : Char) (t : List Char) :
    hexStrVal (c :: t) = (hexDigitVal? c).getD 0 * 16 ^ t.length + hexStrVal t := by
  rw [hexStrVal_cons_foldl, hexFoldl_eq]

theorem hexStrVal_append_singleton (t : List Char) (c : Char) :
    hexStrVal (t ++ [c]) = hexStrVal t * 16 + (hexDigitVal? c).getD 0 := by
  simp [hexStrVal, List.foldl_append]

theorem hexStrVal_lt (s : List Char) : hexStrVal s < 16 ^ s.length := by
  induction s with
  | nil => simp [hexStrVal]
  | cons c t ih =>
      rw [hexStrVal_cons]
      have hd := hexDigitVal_getD_le c
      have : (hexDigitVal? c).getD 0 * 16 ^ t.length + hexStrVal t <
          ((hexDigitVal? c).getD 0 + 1) * 16 ^ t.length := by nlinarith
      calc (hexDigitVal? c).getD 0 * 16 ^ t.length + hexStrVal t
          < ((hexDigitVal? c).getD 0 + 1) * 16 ^ t.length := this
        _ ≤ 16 * 16 ^ t.length := by
            have : (hexDigitVal? c).getD 0 + 1 ≤ 16 := by omega
            exact Nat.mul_le_mul_right _ this
        _ = 16 ^ (c :: t).length := by rw [List.length_cons]; ring

theorem hexStrVal_pos (c : Char) (t : List Char) (hc : isLowerHexDigit c = true)
    (h0 : c ≠ '0') : 0 < hexStrVal (c :: t) := by
  rw [hexStrVal_cons]
  have hd := (lowerHex_char_facts c hc).2.2 h0
  have : 0 < 16 ^ t.length := Nat.pos_pow_of_pos _ (by norm_num)
  have : 0 < (hexDigitVal? c).getD 0 * 16 ^ t.length := Nat.mul_pos (by omega) this
  omega

theorem parseIntHexAux_all_hex (s : List Char) :
    ∀ a, (∀ c ∈ s, isLowerHexDigit c = true) →
    parseIntHexAux s a = s.foldl (fun x c => x * 16 + (hexDigitVal? c).getD 0) a := by
  induction s with
  | nil => intro a _; rfl
  | cons c t ih =>
      intro a hall
      have hc := (lowerHex_char_facts c (hall c (by simp))).1
      set d := (hexDigitVal? c).getD 0 with hd
      simp only [parseIntHexAux, hc, List.foldl_cons]
      exact ih _ (fun x hx => hall x (by simp [hx]))

theorem parseIntHex_all_hex (s : List Char) (hall : ∀ c ∈ s, isLowerHexDigit c = true)
    (hne : s ≠ []) : parseIntHex s = .num (hexStrVal s) := by
  cases s with
  | nil => exact absurd rfl hne
  | cons c t =>
      have hc := (lowerHex_char_facts c (hall c (by simp))).1
      rw [hexStrVal_cons_foldl]
      set d := (hexDigitVal? c).getD 0 with hd
      simp only [parseIntHex, hc]
      rw [parseIntHexAux_all_hex t _ (fun x hx => hall x (by simp [hx]))]

-- ----------------------------------------------------------------------------
-- Lemmas: hex printing

theorem natToHexAux_step (n : Nat) (hn : 0 < n) (acc : List Char) :
    natToHexAux n acc = natToHexAux (n / 16) (natToHexChar (n % 16) :: acc) := by
  cases n with
  | zero => omega
  | succ m => simp [natToHexAux]

theorem natToHexAux_hexStrVal (t : List Char) :
    ∀ acc, (∀ c ∈ t, isLowerHexDigit c = true) → t.head? ≠ some '0' →
    natToHexAux (hexStrVal t) acc = t ++ acc := by
  induction t using List.reverseRecOn with
  | nil => intro acc _ _; simp [hexStrVal, natToHexAux]
  | append_singleton t' c ih =>
      intro acc hall hhd
      have hc : isLowerHexDigit c = true := hall c (by simp)
      obtain ⟨hsc, hchar, hnz⟩ := lowerHex_char_facts c hc
      have hdlt : (hexDigitVal? c).getD 0 ≤ 15 := hexDigitVal_getD_le c
      rw [hexStrVal_append_singleton]
      cases t' with
      | nil =>
          have hc0 : c ≠ '0' := by
            intro h; subst h; simp at hhd
          have hdpos := hnz hc0
          have hval : hexStrVal ([] : List Char) = 0 := rfl
          rw [hval]
          have h016 : (0 : Nat) * 16 + (hexDigitVal? c).getD 0 = (hexDigitVal? c).getD 0 := by
            omega
          rw [h016]
          rw [natToHexAux_step _ (by omega) acc]
          rw [Nat.div_eq_of_lt (by omega), Nat.mod_eq_of_lt (by omega)]
          have : natToHexAux 0 (natToHexChar ((hexDigitVal? c).getD 0) :: acc) =
              natToHexChar ((hexDigitVal? c).getD 0) :: acc := by simp [natToHexAux]
          rw [this, hchar]
          simp
      | cons c' r =>
          have hc'0 : c' ≠ '0' := by
            intro h; subst h; simp at hhd
          have hv' : 0 < hexStrVal (c' :: r) :=
            hexStrVal_pos c' r (hall c' (by simp)) hc'0
          rw [natToHexAux_step _ (by positivity) acc]
          have hdiv : (hexStrVal (c' :: r) * 16 + (hexDigitVal? c).getD 0) / 16 =
              hexStrVal (c' :: r) := by omega
          have hmod : (hexStrVal (c' :: r) * 16 + (hexDigitVal? c).getD 0) % 16 =
              (hexDigitVal? c).getD 0 := by omega
          rw [hdiv, hmod, hchar]
          rw [ih (c :: acc)
            (fun x hx => hall x (by simp only [List.mem_cons, List.mem_append] at hx ⊢; tauto))
            (by simp [hc'0])]
          simp

theorem natToHexAux_length_le (k : Nat) : ∀ (v : Nat) (acc : List Char), v < 16 ^ k →
    (natToHexAux v acc).length ≤ k + acc.length := by
  induction k with
  | zero =>
      intro v acc hv
      have : v = 0 := by simpa using hv
      subst this
      simp [natToHexAux]
  | succ k ih =>
      intro v acc hv
      cases v with
      | zero => simp [natToHexAux]
      | succ m =>
          rw [natToHexAux_step _ (Nat.succ_pos m) acc]
          have hlt : (m + 1) / 16 < 16 ^ k := by
            rw [Nat.div_lt_iff_lt_mul (by norm_num)]
            calc m + 1 < 16 ^ (k + 1) := hv
              _ = 16 ^ k * 16 := by ring
          have := ih ((m + 1) / 16) (natToHexChar ((m + 1) % 16) :: acc) hlt
          simp only [List.length_cons, Nat.succ_eq_add_one] at this ⊢
          omega

theorem natToHex_length_le (k v : Nat) (hk : 0 < k) (hv : v < 16 ^ k) :
    (natToHex v).length ≤ k := by
  unfold natToHex
  split
  · simpa using hk
  · simpa using natToHexAux_length_le k v [] hv

theorem natToHex_hexStrVal (t : List Char) (hall : ∀ c ∈ t, isLowerHexDigit c = true)
    (hne : t ≠ []) (hhd : t.head? ≠ some '0') : natToHex (hexStrVal t) = t := by
  obtain ⟨c, r, rfl⟩ := List.exists_cons_of_ne_nil hne
  have hc0 : c ≠ '0' := by simpa using hhd
  have hpos := hexStrVal_pos c r (hall c (by simp)) hc0
  unfold natToHex
  rw [if_neg (by omega)]
  rw [natToHexAux_hexStrVal (c :: r) [] hall hhd]
  simp

theorem zeroPad_natToHex_hexStrVal (u : List Char) :
    (∀ c ∈ u, isLowerHexDigit c = true) → u ≠ [] →
    zeroPad u.length (natToHex (hexStrVal u)) = u := by
  induction u with
  | nil => intro _ h; exact absurd rfl h
  | cons c rest ih =>
      intro hall _
      by_cases hc : c = '0'
      · subst hc
        have hval : hexStrVal ('0' :: rest) = hexStrVal rest := by
          rw [hexStrVal_cons]
          norm_num [hexDigitVal?]
        rw [hval]
        cases rest with
        | nil => decide
        | cons c2 r2 =>
            have ih' := ih (fun x hx => hall x (by simp [hx])) (by simp)
            have hXlen : (natToHex (hexStrVal (c2 :: r2))).length ≤ (c2 :: r2).length :=
              natToHex_length_le _ _ (by simp) (hexStrVal_lt _)
            unfold zeroPad at ih' ⊢
            have hsub : ('0' :: c2 :: r2).length - (natToHex (hexStrVal (c2 :: r2))).length =
                ((c2 :: r2).length - (natToHex (hexStrVal (c2 :: r2))).length) + 1 := by
              simp only [List.length_cons] at hXlen ⊢
              omega
            rw [hsub, List.replicate_succ, List.cons_append, ih']
      · have : natToHex (hexStrVal (c :: rest)) = c :: rest :=
          natToHex_hexStrVal _ hall (by simp) (by simpa using hc)
        rw [this]
        unfold zeroPad
        simp

-- ----------------------------------------------------------------------------
-- Claim theorems: identifier codec

/-- C2: for every valid lowercase hexadecimal identifier string of the
engine's expected width (15 hex digits; validity forces a nonzero leading
digit, since a valid cell index has its mode bit set), decoding with
`h3AddressToSplitLong` yields a numeric `[lower, upper]` pair, and re-encoding
that pair with `splitLongToH3Address` returns the original string. -/
theorem splitLong_roundtrip (s : List Char) (hlen : s.length = 15)
    (hhex : s.all isLowerHexDigit = true) (hhd : s.head? ≠ some '0') :
    ∃ lo hi : Nat,
      h3AddressToSplitLong (.str s) = (.num lo, .num hi) ∧
      splitLongToH3Address lo hi = s := by
  have hall : ∀ c ∈ s, isLowerHexDigit c = true := by
    intro c hc; exact List.all_eq_true.mp hhex c hc
  have hlow : ∀ c ∈ s.drop 7, isLowerHexDigit c = true :=
    fun c hc => hall c (List.mem_of_mem_drop hc)
  have hup : ∀ c ∈ s.take 7, isLowerHexDigit c = true :=
    fun c hc => hall c (List.mem_of_mem_take hc)
  have hdroplen : (s.drop 7).length = 8 := by simp [hlen]
  have htakelen : (s.take 7).length = 7 := by simp [hlen]
  have hdropne : s.drop 7 ≠ [] := by
    intro h; rw [h] at hdroplen; simp at hdroplen
  have htakene : s.take 7 ≠ [] := by
    intro h; rw [h] at htakelen; simp at htakelen
  have hsub : s.length - 8 = 7 := by omega
  refine ⟨hexStrVal (s.drop 7), hexStrVal (s.take 7), ?_, ?_⟩
  · simp only [h3AddressToSplitLong, hsub]
    rw [parseIntHex_all_hex _ hlow hdropne, parseIntHex_all_hex _ hup htakene]
  · have hsne : s ≠ [] := by
      intro h; rw [h] at hlen; simp at hlen
    have hheadtake : (s.take 7).head? = s.head? := by
      obtain ⟨c, r, rfl⟩ := List.exists_cons_of_ne_nil hsne
      rfl
    unfold splitLongToH3Address hexFrom32Bit
    rw [if_pos (by positivity), if_pos (by positivity)]
    rw [Int.toNat_natCast, Int.toNat_natCast]
    rw [natToHex_hexStrVal (s.take 7) hup htakene (hheadtake ▸ hhd)]
    have h8 : (8 : Nat) = (s.drop 7).length := hdroplen.symm
    rw [h8, zeroPad_natToHex_hexStrVal (s.drop 7) hlow hdropne]
    exact List.take_append_drop 7 s

/-- Witness for C2 at the resolution-9 cell address `"8928308280fffff"`. -/
theorem splitLong_roundtrip_witness :
    (("8928308280fffff".toList.length = 15) ∧
      ("8928308280fffff".toList.all isLowerHexDigit = true) ∧
      ("8928308280fffff".toList.head? ≠ some '0')) ∧
    ∃ lo hi : Nat,
      h3AddressToSplitLong (.str "8928308280fffff".toList) = (.num lo, .num hi) ∧
      splitLongToH3Address lo hi = "8928308280fffff".toList := by
  refine ⟨by decide, ?_⟩
  exact splitLong_roundtrip _ (by decide) (by decide) (by decide)

/-- C9: `h3AddressToSplitLong` fails soft — every non-string input (numbers,
NaN, booleans, null, undefined) yields the `[0, 0]` sentinel pair rather than
raising. -/
theorem splitLong_soft_fail (v : JSValue) (h : v.isString = false) :
    h3AddressToSplitLong v = (.num 0, .num 0) := by
  cases v <;> simp_all [JSValue.isString, h3AddressToSplitLong]

/-- Witness for C9 at `null`. -/
theorem splitLong_soft_fail_witness :
    JSValue.nullV.isString = false ∧
      h3AddressToSplitLong .nullV = (.num 0, .num 0) :=
  ⟨rfl, splitLong_soft_fail .nullV rfl⟩

/-- C10: `h3GetResolution` makes no engine call (it is a pure function of the
host string).  Every non-string input returns `-1`; a string input returns
exactly `parseInt` of its second character as one hex digit — so a string
whose second character is a hex digit of value `d` yields `d`, and a string
whose second character is missing or not a hex digit yields NaN, not `-1`. -/
theorem h3GetResolution_spec :
    (∀ v : JSValue, v.isString = false → h3GetResolution v = .num (-1)) ∧
    (∀ (s : List Char) (c : Char) (d : Nat), s[1]? = some c → hexDigitVal? c = some d →
      h3GetResolution (.str s) = .num d) ∧
    (∀ s : List Char, (∀ c, s[1]? = some c → hexDigitVal? c = none) →
      h3GetResolution (.str s) = .nan ∧ (JSNum.nan ≠ .num (-1))) := by
  refine ⟨?_, ?_, ?_⟩
  · intro v hv
    cases v <;> simp_all [JSValue.isString, h3GetResolution]
  · intro s c d hc hd
    simp only [h3GetResolution, hc, parseIntHex, hd, parseIntHexAux]
  · intro s hnone
    refine ⟨?_, by simp⟩
    cases hg : s[1]? with
    | none => simp [h3GetResolution, hg, parseIntHex]
    | some c => simp [h3GetResolution, hg, parseIntHex, hnone c hg]

/-- Witness for C10: a boolean input gives `-1`; `"85283473fffffff"` gives its
second digit 5; `"8z"` (second character not a hex digit) gives NaN. -/
theorem h3GetResolution_spec_witness :
    (JSValue.boolV true).isString = false ∧
    h3GetResolution (.boolV true) = .num (-1) ∧
    h3GetResolution (.str "85283473fffffff".toList) = .num 5 ∧
    (h3GetResolution (.str "8z".toList) = .nan ∧ (JSNum.nan ≠ .num (-1))) := by
  refine ⟨rfl, h3GetResolution_spec.1 _ rfl, ?_, ?_⟩
  · exact h3GetResolution_spec.2.1 _ '5' 5 (by decide) (by decide)
  · exact h3GetResolution_spec.2.2 _ (by decide)

-- ----------------------------------------------------------------------------
-- Claim theorems: geometry struct teardown (C1)

/-- C1: the claim fails on the code — `destroyGeoPolygon` is not a symmetric
teardown.  Building a polygon from one outer loop of 3 vertices (no holes)
starting at address 1000 allocates the header (1000) and the outer coordinate
array (1017); destroying it frees the addresses `[3, 1000]`: offset 0 of the
struct holds the geofence `numVerts` field (3), not the coordinate-array
pointer (which sits at offset 4), so the count is freed as an address and the
coordinate array 1017 is never freed. -/
theorem destroyGeoPolygon_not_symmetric :
    ((coordinatesToGeoPolygon (initSt 1000) [[(1, 2), (3, 4), (5, 6)]] false).2.allocLog
        = [1000, 1017]) ∧
    ((destroyGeoPolygon (coordinatesToGeoPolygon (initSt 1000) [[(1, 2), (3, 4), (5, 6)]] false).2
        (coordinatesToGeoPolygon (initSt 1000) [[(1, 2), (3, 4), (5, 6)]] false).1).freeLog
        = [3, 1000]) ∧
    (1017 : Nat) ∉ ([3, 1000] : List Nat) ∧ (3 : Nat) ∉ ([1000, 1017] : List Nat) := by
  refine ⟨?_, ?_, by decide, by decide⟩ <;> rfl

-- ----------------------------------------------------------------------------
-- Claim theorems: coordinate ranges (C4)

theorem mathPI_pos : (0 : ℚ) < mathPI := by norm_num [mathPI]

theorem radsToDegs_le (r bound : ℚ) (h0 : 0 ≤ r) (hr : r * 180 ≤ bound * mathPI) :
    0 ≤ radsToDegs r ∧ radsToDegs r ≤ bound := by
  have hpi := mathPI_pos
  constructor
  · exact div_nonneg (by linarith) hpi.le
  · rw [radsToDegs, div_le_iff₀ hpi]
    linarith

theorem constrainLat_range (d : ℚ) (h0 : 0 ≤ d) (h180 : d ≤ 180) :
    -90 < constrainLat d ∧ constrainLat d ≤ 90 := by
  unfold constrainLat
  split <;> constructor <;> linarith

theorem constrainLng_range (d : ℚ) (h0 : 0 ≤ d) (h360 : d ≤ 360) :
    -180 < constrainLng d ∧ constrainLng d ≤ 180 := by
  unfold constrainLng
  split <;> constructor <;> linarith

/-- C4: a GeoPoint read from the heap by either coordinate reader
(`readGeoCoord` for `[lat, lng]`, `readGeoCoordGeoJson` for `[lng, lat]` —
the only two point readers, used by every read path), under the precondition
that the engine stored a latitude in [0°, 180°] and a longitude in [0°, 360°]
in radians, has latitude in (−90, 90] and longitude in (−180, 180]. -/
theorem readGeoCoord_ranges (h : Heap) (a : Nat)
    (hlat0 : 0 ≤ h.f64 a) (hlat1 : h.f64 a ≤ mathPI)
    (hlng0 : 0 ≤ h.f64 (a + SZ_DBL)) (hlng1 : h.f64 (a + SZ_DBL) ≤ 2 * mathPI) :
    (-90 < (readGeoCoord h a).1 ∧ (readGeoCoord h a).1 ≤ 90) ∧
    (-180 < (readGeoCoord h a).2 ∧ (readGeoCoord h a).2 ≤ 180) ∧
    (-90 < (readGeoCoordGeoJson h a).2 ∧ (readGeoCoordGeoJson h a).2 ≤ 90) ∧
    (-180 < (readGeoCoordGeoJson h a).1 ∧ (readGeoCoordGeoJson h a).1 ≤ 180) := by
  have hlatd := radsToDegs_le (h.f64 a) 180 hlat0 (by nlinarith [mathPI_pos])
  have hlngd := radsToDegs_le (h.f64 (a + SZ_DBL)) 360 hlng0 (by nlinarith [mathPI_pos])
  have hlat := constrainLat_range (radsToDegs (h.f64 a)) hlatd.1 hlatd.2
  have hlng := constrainLng_range (radsToDegs (h.f64 (a + SZ_DBL))) hlngd.1 hlngd.2
  exact ⟨hlat, hlng, hlat, hlng⟩

/-- Witness for C4: the heap holding radians for (90°, 180°) at address 0
reads back as exactly latitude 90 and longitude 180, in range. -/
theorem readGeoCoord_ranges_witness :
    ((0 ≤ c4Heap.f64 0) ∧ (c4Heap.f64 0 ≤ mathPI) ∧
      (0 ≤ c4Heap.f64 (0 + SZ_DBL)) ∧ (c4Heap.f64 (0 + SZ_DBL) ≤ 2 * mathPI)) ∧
    ((-90 < (readGeoCoord c4Heap 0).1 ∧ (readGeoCoord c4Heap 0).1 ≤ 90) ∧
     (-180 < (readGeoCoord c4Heap 0).2 ∧ (readGeoCoord c4Heap 0).2 ≤ 180) ∧
     (-90 < (readGeoCoordGeoJson c4Heap 0).2 ∧ (readGeoCoordGeoJson c4Heap 0).2 ≤ 90) ∧
     (-180 < (readGeoCoordGeoJson c4Heap 0).1 ∧ (readGeoCoordGeoJson c4Heap 0).1 ≤ 180)) := by
  have h1 : 0 ≤ c4Heap.f64 0 := by
    simp only [c4Heap]; norm_num [mathPI]
  have h2 : c4Heap.f64 0 ≤ mathPI := by
    simp only [c4Heap]; norm_num [mathPI]
  have h3 : 0 ≤ c4Heap.f64 (0 + SZ_DBL) := by
    simp only [c4Heap, SZ_DBL]; norm_num [mathPI]
  have h4 : c4Heap.f64 (0 + SZ_DBL) ≤ 2 * mathPI := by
    simp only [c4Heap, SZ_DBL]; norm_num [mathPI]
  exact ⟨⟨h1, h2, h3, h4⟩, readGeoCoord_ranges c4Heap 0 h1 h2 h3 h4⟩

-- ----------------------------------------------------------------------------
-- Claim theorems: polyfill empty-input guard (C6)

/-- C6: with a valid resolution, `polyfill` on an empty loop list (an empty
coordinates array, or one whose first loop is empty) returns the empty array
and leaves the state — heap, allocation counter, allocation/free logs, and the
engine-call log — completely untouched: no engine call, no allocation. -/
theorem polyfill_empty_input (E : Engine) (input : CoordsInput) (res : JSValue)
    (isGeoJson : Bool) (st : HeapSt)
    (hres : validateResOk res = true) (hempty : emptyCoordsInput input = true) :
    polyfill E input res isGeoJson st = (.ok [], st) := by
  unfold polyfill
  rw [if_neg (by simp [hres]), if_pos hempty]

/-- Witness for C6: the empty polygon list at resolution 9 under the
trivial engine. -/
theorem polyfill_empty_input_witness :
    (validateResOk (.numV 9) = true ∧ emptyCoordsInput (.polygons []) = true) ∧
    polyfill zeroEngine (.polygons []) (.numV 9) false (initSt 0) = (.ok [], initSt 0) :=
  ⟨⟨by decide, by decide⟩,
    polyfill_empty_input zeroEngine (.polygons []) (.numV 9) false (initSt 0)
      (by decide) (by decide)⟩

-- ----------------------------------------------------------------------------
-- Claim theorems: unit conversion validation (C8)

/-- C8: `hexArea` and `edgeLength` raise for any resolution the validator
rejects (anything but an integer 0–15), and raise for any unit outside their
recognized sets (`hexArea`: "m2"/"km2"; `edgeLength`: "m"/"km"), in both
cases returning the state unchanged — no engine measurement call is made and
an unrecognized unit is never silently defaulted. -/
theorem unit_conversion_validation :
    (∀ (E : Engine) (res unit : JSValue) (st : HeapSt), validateResOk res = false →
      hexArea E res unit st = (.error .invalidRes, st) ∧
      edgeLength E res unit st = (.error .invalidRes, st)) ∧
    (∀ (E : Engine) (res unit : JSValue) (st : HeapSt), validateResOk res = true →
      unit ≠ .str "m2".toList → unit ≠ .str "km2".toList →
      hexArea E res unit st = (.error .unknownUnit, st)) ∧
    (∀ (E : Engine) (res unit : JSValue) (st : HeapSt), validateResOk res = true →
      unit ≠ .str "m".toList → unit ≠ .str "km".toList →
      edgeLength E res unit st = (.error .unknownUnit, st)) := by
  refine ⟨?_, ?_, ?_⟩
  · intro E res unit st hres
    constructor
    · unfold hexArea; rw [if_pos hres]
    · unfold edgeLength; rw [if_pos hres]
  · intro E res unit st hres h1 h2
    unfold hexArea
    rw [if_neg (by simp [hres]), if_neg h1, if_neg h2]
  · intro E res unit st hres h1 h2
    unfold edgeLength
    rw [if_neg (by simp [hres]), if_neg h1, if_neg h2]

/-- Witness for C8: resolution 16 is rejected before the unit is looked at;
resolution 9 with unit "miles" (for `hexArea`) and "mi" (for `edgeLength`)
hits the throwing default. -/
theorem unit_conversion_validation_witness :
    (validateResOk (.numV 16) = false ∧
      hexArea zeroEngine (.numV 16) (.str "m2".toList) (initSt 0) =
        (.error .invalidRes, initSt 0)) ∧
    (validateResOk (.numV 9) = true ∧
      hexArea zeroEngine (.numV 9) (.str "miles".toList) (initSt 0) =
        (.error .unknownUnit, initSt 0) ∧
      edgeLength zeroEngine (.numV 9) (.str "mi".toList) (initSt 0) =
        (.error .unknownUnit, initSt 0)) := by
  refine ⟨⟨by decide, ?_⟩, ⟨by decide, ?_, ?_⟩⟩
  · exact (unit_conversion_validation.1 zeroEngine _ _ _ (by decide)).1
  · exact unit_conversion_validation.2.1 zeroEngine _ _ _ (by decide) (by decide) (by decide)
  · exact unit_conversion_validation.2.2 zeroEngine _ _ _ (by decide) (by decide) (by decide)

-- ----------------------------------------------------------------------------
-- Claim theorems: sentinel-skipping array reads (C7)

theorem readArray_foldl_general (h : Heap) (a : Nat) (l : List Nat) :
    ∀ out0 : List (List Char),
      l.foldl
        (fun out v =>
          let lower := h.get32 (a + SZ_INT * (2 * v))
          let upper := h.get32 (a + SZ_INT * (2 * v + 1))
          if lower ≠ 0 ∨ upper ≠ 0 then out ++ [splitLongToH3Address lower upper] else out)
        out0 =
      out0 ++
        (((l.map (fun v =>
            (h.get32 (a + SZ_INT * (2 * v)), h.get32 (a + SZ_INT * (2 * v + 1))))).filter
              (fun p => p ≠ (0, 0))).map (fun p => splitLongToH3Address p.1 p.2)) := by
  induction l with
  | nil => intro out0; simp
  | cons v t ih =>
      intro out0
      simp only [List.foldl_cons, List.map_cons, List.filter_cons]
      by_cases hz :
          (h.get32 (a + SZ_INT * (2 * v)), h.get32 (a + SZ_INT * (2 * v + 1))) =
            ((0 : Int), (0 : Int))
      · have h1 : h.get32 (a + SZ_INT * (2 * v)) = 0 := by
          simpa using congrArg Prod.fst hz
        have h2 : h.get32 (a + SZ_INT * (2 * v + 1)) = 0 := by
          simpa using congrArg Prod.snd hz
        simp only [h1, h2, ne_eq, not_true_eq_false, false_or, if_false, decide_not]
        rw [ih out0]
        simp
      · have hcond : h.get32 (a + SZ_INT * (2 * v)) ≠ 0 ∨
            h.get32 (a + SZ_INT * (2 * v + 1)) ≠ 0 := by
          by_contra hcon
          push_neg at hcon
          exact hz (by simp [hcon.1, hcon.2])
        simp only [if_pos hcond]
        rw [ih (out0 ++ [splitLongToH3Address _ _])]
        simp only [ne_eq, List.append_assoc, List.singleton_append]
        rw [if_pos (by simpa using hcond)]
        simp

/-- C7: `readArrayOfHexagons` over an estimated capacity returns, in buffer
order, exactly the entries whose word pair is not the `(0, 0)` sentinel —
interior sentinel slots are skipped, not just trailing ones — so the number of
returned identifiers never exceeds the scanned capacity; in particular `kRing`
returns at most `maxKringSize` identifiers. -/
theorem readArrayOfHexagons_sentinel_skip :
    (∀ (h : Heap) (a n : Nat),
      readArrayOfHexagons h a n =
        ((((List.range n).map (fun v =>
            (h.get32 (a + SZ_INT * (2 * v)), h.get32 (a + SZ_INT * (2 * v + 1))))).filter
              (fun p => p ≠ (0, 0))).map (fun p => splitLongToH3Address p.1 p.2))) ∧
    (∀ (h : Heap) (a n : Nat), (readArrayOfHexagons h a n).length ≤ n) ∧
    (∀ (E : Engine) (v : JSValue) (r : Int) (st : HeapSt),
      (kRing E v r st).1.length ≤ (E.maxKringSize r).toNat) := by
  have hchar : ∀ (h : Heap) (a n : Nat),
      readArrayOfHexagons h a n =
        ((((List.range n).map (fun v =>
            (h.get32 (a + SZ_INT * (2 * v)), h.get32 (a + SZ_INT * (2 * v + 1))))).filter
              (fun p => p ≠ (0, 0))).map (fun p => splitLongToH3Address p.1 p.2)) := by
    intro h a n
    unfold readArrayOfHexagons
    simpa using readArray_foldl_general h a (List.range n) []
  have hlen : ∀ (h : Heap) (a n : Nat), (readArrayOfHexagons h a n).length ≤ n := by
    intro h a n
    rw [hchar h a n]
    rw [List.length_map]
    have h1 := List.length_filter_le (fun p => decide (p ≠ ((0 : Int), (0 : Int))))
      ((List.range n).map (fun v =>
        (h.get32 (a + SZ_INT * (2 * v)), h.get32 (a + SZ_INT * (2 * v + 1)))))
    simpa using h1
  refine ⟨hchar, hlen, ?_⟩
  intro E v r st
  exact hlen _ _ _

-- ----------------------------------------------------------------------------
-- Claim theorems: engine-failure cleanup (C3)

/-- C3: for each operation with a documented engine failure mode (`hexRing`,
`compact`, `uncompact`), every error exit happens with the freshly-made
allocations exactly matched by the frees performed before raising: the
allocation log and the free log are extended by the same address list `A`
(every block allocated during the call is freed exactly once, and no other
address is freed), and the error names the operation (`uncompact` can also
raise the resolution-validation error, which occurs before any allocation,
with `A = []`). -/
theorem engine_failure_cleanup :
    (∀ (E : Engine) (v : JSValue) (r : Int) (st : HeapSt) (msg : JSError),
      (hexRing E v r st).1 = .error msg →
      msg = .hexRingFailed ∧ ∃ A, (hexRing E v r st).2.allocLog = st.allocLog ++ A ∧
        (hexRing E v r st).2.freeLog = st.freeLog ++ A) ∧
    (∀ (E : Engine) (s : Option (List JSValue)) (st : HeapSt) (msg : JSError),
      (compact E s st).1 = .error msg →
      msg = .compactFailed ∧ ∃ A, (compact E s st).2.allocLog = st.allocLog ++ A ∧
        (compact E s st).2.freeLog = st.freeLog ++ A) ∧
    (∀ (E : Engine) (s : Option (List JSValue)) (res : JSValue) (st : HeapSt) (msg : JSError),
      (uncompact E s res st).1 = .error msg →
      (msg = .uncompactFailed ∨ msg = .invalidRes) ∧
      ∃ A, (uncompact E s res st).2.allocLog = st.allocLog ++ A ∧
        (uncompact E s res st).2.freeLog = st.freeLog ++ A) := by
  refine ⟨?_, ?_, ?_⟩
  · intro E v r st msg h
    rcases hEq : hexRing E v r st with ⟨resx, st'⟩
    rw [hEq] at h
    replace h : resx = Except.error msg := h
    have hEq' := hEq
    unfold hexRing at hEq'
    simp only [calloc] at hEq'
    split at hEq' <;> split at hEq' <;>
      injection hEq' with h1 h2 <;> rw [← h1] at h
    case isTrue.isTrue =>
      refine ⟨(Except.error.inj h).symm, [st.next], ?_⟩
      show st'.allocLog = _ ∧ st'.freeLog = _
      rw [← h2]
      simp [freeAddr]
    case isTrue.isFalse => exact absurd h (fun hh => Except.noConfusion hh)
    case isFalse.isTrue =>
      refine ⟨(Except.error.inj h).symm, [st.next], ?_⟩
      show st'.allocLog = _ ∧ st'.freeLog = _
      rw [← h2]
      simp [freeAddr]
    case isFalse.isFalse => exact absurd h (fun hh => Except.noConfusion hh)
  · intro E s st msg h
    cases s with
    | none => simp [compact] at h
    | some l =>
        rcases hEq : compact E (some l) st with ⟨resx, st'⟩
        rw [hEq] at h
        replace h : resx = Except.error msg := h
        have hEq' := hEq
        unfold compact at hEq'
        simp only [calloc] at hEq'
        split at hEq'
        · injection hEq' with h1 h2
          rw [← h1] at h
          exact absurd h (fun hh => Except.noConfusion hh)
        · split at hEq'
          · injection hEq' with h1 h2
            rw [← h1] at h
            refine ⟨(Except.error.inj h).symm,
              [st.next, st.next + l.length * SZ_H3INDEX + 1], ?_⟩
            show st'.allocLog = _ ∧ st'.freeLog = _
            rw [← h2]
            simp [freeAddr]
          · injection hEq' with h1 h2
            rw [← h1] at h
            exact absurd h (fun hh => Except.noConfusion hh)
  · intro E s res st msg h
    rcases hEq : uncompact E s res st with ⟨resx, st'⟩
    rw [hEq] at h
    replace h : resx = Except.error msg := h
    have hEq' := hEq
    unfold uncompact at hEq'
    split at hEq'
    · injection hEq' with h1 h2
      rw [← h1] at h
      refine ⟨Or.inr (Except.error.inj h).symm, [], ?_⟩
      show st'.allocLog = _ ∧ st'.freeLog = _
      rw [← h2]
      simp
    · cases s with
      | none =>
          simp only at hEq'
          injection hEq' with h1 h2
          rw [← h1] at h
          exact absurd h (fun hh => Except.noConfusion hh)
      | some l =>
          simp only [calloc] at hEq'
          split at hEq'
          · injection hEq' with h1 h2
            rw [← h1] at h
            exact absurd h (fun hh => Except.noConfusion hh)
          · split at hEq'
            · injection hEq' with h1 h2
              rw [← h1] at h
              refine ⟨Or.inl (Except.error.inj h).symm,
                [st.next, st.next + l.length * SZ_H3INDEX + 1], ?_⟩
              show st'.allocLog = _ ∧ st'.freeLog = _
              rw [← h2]
              simp [freeAddr, logEngine]
            · injection hEq' with h1 h2
              rw [← h1] at h
              exact absurd h (fun hh => Except.noConfusion hh)

/-- Witness for C3: under `failEngine` (every fallible call returns nonzero),
each of the three operations raises its own error with the fresh allocations
and frees matching. -/
theorem engine_failure_cleanup_witness :
    (∃ A, (hexRing failEngine (.str ['a']) 1 (initSt 50)).2.allocLog =
        (initSt 50).allocLog ++ A ∧
      (hexRing failEngine (.str ['a']) 1 (initSt 50)).2.freeLog =
        (initSt 50).freeLog ++ A) ∧
    (∃ A, (compact failEngine (some [.str ['a']]) (initSt 50)).2.allocLog =
        (initSt 50).allocLog ++ A ∧
      (compact failEngine (some [.str ['a']]) (initSt 50)).2.freeLog =
        (initSt 50).freeLog ++ A) ∧
    (∃ A, (uncompact failEngine (some [.str ['a']]) (.numV 9) (initSt 50)).2.allocLog =
        (initSt 50).allocLog ++ A ∧
      (uncompact failEngine (some [.str ['a']]) (.numV 9) (initSt 50)).2.freeLog =
        (initSt 50).freeLog ++ A) :=
  ⟨(engine_failure_cleanup.1 failEngine (.str ['a']) 1 (initSt 50) .hexRingFailed rfl).2,
   (engine_failure_cleanup.2.1 failEngine (some [.str ['a']]) (initSt 50) .compactFailed rfl).2,
   (engine_failure_cleanup.2.2 failEngine (some [.str ['a']]) (.numV 9) (initSt 50)
      .uncompactFailed rfl).2⟩

-- ----------------------------------------------------------------------------
-- Claim theorems: loop closing (C5)

theorem radsToDegs_degsToRads (q : ℚ) : radsToDegs (degsToRads q) = q := by
  have h := mathPI_pos
  unfold radsToDegs degsToRads
  field_simp

theorem readLoopChain_true_closed (h : Heap) (fuel : Nat) :
    ∀ (la : Nat) (loop : List (ℚ × ℚ)), loop ∈ readLoopChain h true fuel la →
      loop ≠ [] ∧ loop.getLast? = loop.head? := by
  induction fuel with
  | zero => intro la loop hm; simp [readLoopChain] at hm
  | succ f ih =>
      intro la loop hm
      by_cases hla : la = 0
      · simp [readLoopChain, hla] at hm
      · rw [readLoopChain, if_neg hla] at hm
        rcases List.mem_cons.mp hm with hm | hm
        · subst hm
          cases hco : readCoordChain h true f (toAddr (h.get32 la)) with
          | nil => simp
          | cons c t =>
              refine ⟨by simp, ?_⟩
              have hre : (if true = true then c :: t ++ [(c :: t).headD (0, 0)] else c :: t) =
                  (c :: t) ++ [c] := by simp
              rw [hre, List.getLast?_concat]
              simp
        · exact ih _ _ hm

theorem readPolygonChain_true_closed (h : Heap) (fuel : Nat) :
    ∀ (root : Nat) (poly : List (List (ℚ × ℚ))) (loop : List (ℚ × ℚ)),
      poly ∈ readPolygonChain h true fuel root → loop ∈ poly →
      loop ≠ [] ∧ loop.getLast? = loop.head? := by
  induction fuel with
  | zero => intro root poly loop hp _; simp [readPolygonChain] at hp
  | succ f ih =>
      intro root poly loop hp hl
      by_cases hr : root = 0
      · simp [readPolygonChain, hr] at hp
      · rw [readPolygonChain, if_neg hr] at hp
        rcases List.mem_cons.mp hp with hp | hp
        · subst hp
          exact readLoopChain_true_closed h f _ loop hl
        · exact ih _ _ _ hp hl

theorem readCoordChain_length_mode (h : Heap) (fuel : Nat) :
    ∀ a, (readCoordChain h true fuel a).length = (readCoordChain h false fuel a).length := by
  induction fuel with
  | zero => intro a; rfl
  | succ f ih =>
      intro a
      by_cases ha : a = 0
      · simp [readCoordChain, ha]
      · rw [readCoordChain, readCoordChain, if_neg ha, if_neg ha]
        simp [ih]

theorem readLoopChain_length_mode (h : Heap) (fuel : Nat) :
    ∀ la, (readLoopChain h true fuel la).map List.length =
      (readLoopChain h false fuel la).map (fun l => l.length + 1) := by
  induction fuel with
  | zero => intro la; rfl
  | succ f ih =>
      intro la
      by_cases hla : la = 0
      · simp [readLoopChain, hla]
      · rw [readLoopChain, readLoopChain, if_neg hla, if_neg hla]
        simp only [List.map_cons]
        rw [ih]
        congr 1
        simp [List.length_append, readCoordChain_length_mode h f]

theorem readPolygonChain_length_mode (h : Heap) (fuel : Nat) :
    ∀ root, (readPolygonChain h true fuel root).map (fun poly => poly.map List.length) =
      (readPolygonChain h false fuel root).map (fun poly => poly.map (fun l => l.length + 1)) := by
  induction fuel with
  | zero => intro root; rfl
  | succ f ih =>
      intro root
      by_cases hr : root = 0
      · simp [readPolygonChain, hr]
      · rw [readPolygonChain, readPolygonChain, if_neg hr, if_neg hr]
        simp only [List.map_cons, ih]
        congr 1
        exact readLoopChain_length_mode h f _

/-- C5 (amended): boundary and multi-polygon reads append a closing point
equal to the first point exactly when `closedLoop`/GeoJSON mode asks for it —
`h3ToGeoBoundary` passes the GeoJSON flag as `closedLoop`, and `readMultiPolygon`
closes every loop in GeoJSON mode (each returned loop is nonempty with last
point = first point) and appends nothing otherwise (each GeoJSON loop is
exactly one point longer than its non-GeoJSON counterpart) — but
`getH3UnidirectionalEdgeBoundary` omits the `closedLoop` argument, so its
boundary read never appends a closing point, in either coordinate mode. -/
theorem loop_closing_modes :
    (∀ (h : Heap) (gb : Nat) (fmt : Bool),
      (readGeoBoundary h gb fmt false).length = (h.get32 gb).toNat) ∧
    (∀ (h : Heap) (gb : Nat) (fmt : Bool), 1 ≤ (h.get32 gb).toNat →
      ∃ base p, base.head? = some p ∧
        readGeoBoundary h gb fmt false = base ∧
        readGeoBoundary h gb fmt true = base ++ [p]) ∧
    (∀ (E : Engine) (v : JSValue) (fmt : Bool) (st : HeapSt),
      ∃ hp a, (h3ToGeoBoundary E v fmt st).1 = readGeoBoundary hp a fmt fmt) ∧
    (∀ (E : Engine) (v : JSValue) (fmt : Bool) (st : HeapSt),
      ∃ hp a, (getH3UnidirectionalEdgeBoundary E v fmt st).1 = readGeoBoundary hp a fmt false) ∧
    (∀ (h : Heap) (root fuel : Nat) (poly : List (List (ℚ × ℚ))) (loop : List (ℚ × ℚ)),
      poly ∈ readMultiPolygon h root true fuel → loop ∈ poly →
      loop ≠ [] ∧ loop.getLast? = loop.head?) ∧
    (∀ (h : Heap) (root fuel : Nat),
      (readMultiPolygon h root true fuel).map (fun poly => poly.map List.length) =
      (readMultiPolygon h root false fuel).map (fun poly => poly.map (fun l => l.length + 1))) := by
  refine ⟨?_, ?_, ?_, ?_, ?_, ?_⟩
  · intro h gb fmt
    unfold readGeoBoundary
    simp
  · intro h gb fmt hn
    obtain ⟨m, hm⟩ : ∃ m, (h.get32 gb).toNat = m + 1 :=
      ⟨(h.get32 gb).toNat - 1, by omega⟩
    refine ⟨(List.range (h.get32 gb).toNat).map
        (fun v => (if fmt then readGeoCoordGeoJson else readGeoCoord) h
          (gb + SZ_DBL + SZ_DBL * (2 * v))),
      (if fmt then readGeoCoordGeoJson else readGeoCoord) h (gb + SZ_DBL + SZ_DBL * (2 * 0)),
      ?_, ?_, ?_⟩
    · rw [hm, List.range_succ_eq_map]
      simp
    · unfold readGeoBoundary
      simp
    · unfold readGeoBoundary
      simp only [if_pos trivial, if_true]
      congr 1
      rw [hm, List.range_succ_eq_map]
      simp [List.headD]
  · intro E v fmt st
    exact ⟨_, _, rfl⟩
  · intro E v fmt st
    exact ⟨_, _, rfl⟩
  · intro h root fuel poly loop hp hl
    exact readPolygonChain_true_closed h fuel root poly loop hp hl
  · intro h root fuel
    exact readPolygonChain_length_mode h fuel root

/-- Witness for the amended C5: on `c5Heap`, a 1-vertex boundary read in
closed mode appends its first point, and the single GeoJSON loop the
multi-polygon walker extracts is closed (last point = first point). -/
theorem loop_closing_modes_witness :
    (1 ≤ (c5Heap.get32 0).toNat ∧
      ∃ base p, base.head? = some p ∧
        readGeoBoundary c5Heap 0 false false = base ∧
        readGeoBoundary c5Heap 0 false true = base ++ [p]) ∧
    (c5Loop ≠ [] ∧ c5Loop.getLast? = c5Loop.head?) :=
  ⟨⟨by decide, loop_closing_modes.2.1 c5Heap 0 false (by decide)⟩,
   loop_closing_modes.2.2.2.2.1 c5Heap 40 5 c5Poly c5Loop
     (List.mem_singleton.mpr rfl) (List.mem_singleton.mpr rfl)⟩

/-- Counterexample to C5 as stated: with an engine that writes a 2-vertex edge
boundary with distinct vertices (0°, 0°) and (10°, 20°), the GeoJSON-mode
`getH3UnidirectionalEdgeBoundary` returns exactly those two points — its last
point is not a repetition of its first, so no closing point was appended even
though the alternate coordinate-order mode was requested. -/
theorem geojson_edge_boundary_not_closed :
    (getH3UnidirectionalEdgeBoundary edgeEngine (.str ['a']) true (initSt 100)).1 =
      [((0 : ℚ), (0 : ℚ)), ((20 : ℚ), (10 : ℚ))] ∧
    ([((0 : ℚ), (0 : ℚ)), ((20 : ℚ), (10 : ℚ))] : List (ℚ × ℚ)).getLast? ≠
      [((0 : ℚ), (0 : ℚ)), ((20 : ℚ), (10 : ℚ))].head? := by
  constructor
  · have hrange : List.range 2 = [0, 1] := rfl
    have htoNat : Int.toNat 2 = 2 := rfl
    norm_num [htoNat, getH3UnidirectionalEdgeBoundary, mallocBytes, engineHeap, freeAddr, initSt,
      edgeEngine, zeroEngine, readGeoBoundary, Heap.get32, Heap.set32, Heap.setF64,
      wrap32, SZ_DBL, SZ_GEOBOUNDARY, hrange, readGeoCoordGeoJson, readSingleCoord,
      radsToDegs_degsToRads, constrainLat, constrainLng]
  · decide

end H3Core
